import Mathlib

/-!
Verification of the Archon retrieval core (search strategy + RAG service)
and the task-service status validation, as a shallow embedding of
`src/python/src/server/services/search/base_search_strategy.py`,
`src/python/src/server/services/search/rag_service.py` and
`src/python/src/server/services/projects/task_service.py`.

Modelling conventions:
* Python dicts of payload attributes become association lists
  (`Payload`); insertion-order and overwrite-on-duplicate semantics of
  the dict literal `\x7b"id": ..., "score": ..., **payload\x7d` are
  modelled by `dictInsert` / `mergePayload`.
* Qdrant similarity scores and embedding coordinates are never computed
  on by this code (they are copied opaquely), so they are carried as
  `Int` rather than floating point.
* The Qdrant client is an external collaborator; it is modelled by its
  contract: for each collection and query vector it holds a ranked
  candidate sequence, it applies the conjunctive-equality filter, and it
  truncates to the requested limit.  A request may also fail
  (connection / unknown-collection errors), modelled by the `failure`
  field.
* Effects are made explicit: `vector_search` returns, together with its
  result, the list of store requests it issued, and the task service
  returns the new database state together with the number of database
  connections it opened.
-/

set_option autoImplicit false

namespace Archon

/-- Scalar attribute values stored in a point's payload. -/
inductive Value where
  | str (s : String)
  | int (n : Int)
  | bool (b : Bool)
  deriving DecidableEq, Repr

/-- A payload: a Python dict from attribute name to scalar value,
modelled as an association list in insertion order. -/
abbrev Payload := List (String × Value)

/-- First-occurrence lookup in an association list (Python `d[k]` /
`d.get(k)` for dicts without duplicate keys). -/
def payloadGet (p : Payload) (k : String) : Option Value :=
  (p.find? (fun kv => kv.1 == k)).map (fun kv => kv.2)

/-- Python dict insertion `d[k] = v`: overwrite in place if the key is
present (keeping its position), else append. -/
def dictInsert (d : Payload) (k : String) (v : Value) : Payload :=
  if d.any (fun kv => kv.1 == k) then
    d.map (fun kv => if kv.1 == k then (k, v) else kv)
  else
    d ++ [(k, v)]

/-- Here `mergePayload base ps` is the Python dict obtained by starting from
`base` and inserting the entries of `ps` left to right — the semantics
of `\x7b**base, **ps\x7d`. -/
def mergePayload (base ps : Payload) : Payload :=
  ps.foldl (fun d kv => dictInsert d kv.1 kv.2) base

/-- A raw hit returned by `QdrantClient.search`
(`qdrant_client` `ScoredPoint`): id, similarity score, optional payload. -/
structure ScoredPoint where
  id : Int
  score : Int
  payload : Option Payload
  deriving DecidableEq, Repr

namespace models

/-- Model of `models.MatchValue(v)` of `qdrant_client`. -/
structure MatchValue where
  value : Value
  deriving DecidableEq, Repr

/-- Model of `models.FieldCondition(key=k, match=models.MatchValue(v))`. -/
structure FieldCondition where
  key : String
  match_value : MatchValue
  deriving DecidableEq, Repr

/-- Model of `models.Filter(must=...)`: a conjunctive filter. -/
structure Filter where
  must : List FieldCondition
  deriving DecidableEq, Repr

end models

/-- The argument bundle of one `client.search(...)` call. -/
structure SearchRequest where
  collection_name : String
  query_vector : List Int
  limit : Int
  query_filter : Option models.Filter
  deriving DecidableEq, Repr

/-- Does a payload satisfy an optional conjunctive-equality filter?
(`None` restricts nothing; a point with no payload fails every
condition.) -/
def matchesFilter (qf : Option models.Filter) (p : Option Payload) : Bool :=
  match qf with
  | none => true
  | some f => f.must.all (fun c => payloadGet (p.getD []) c.key == some c.match_value.value)

/-- The vector store client, modelled by its contract (spec §6):
`ranked` gives, per collection and query vector, the store's candidates
in similarity order (best first); `failure` says whether a given request
fails (unknown collection, connectivity, ...). -/
structure QdrantClient where
  ranked : String → List Int → List ScoredPoint
  failure : SearchRequest → Option String

/-- Model of `client.search(collection_name=..., query_vector=..., limit=...,
query_filter=...)`: either fail, or return the ranked candidates that
satisfy the filter, truncated to `limit`. -/
def QdrantClient.search (client : QdrantClient) (req : SearchRequest) :
    Except String (List ScoredPoint) :=
  match client.failure req with
  | some e => Except.error e
  | none =>
      Except.ok (((client.ranked req.collection_name req.query_vector).filter
        (fun r => matchesFilter req.query_filter r.payload)).take req.limit.toNat)

/-- Error taxonomy of spec §7: caller input errors, embedding-provider
failures, store failures.  The retrieval code itself only ever
constructs `store` (propagating the client) and passes embedding errors
through unchanged. -/
inductive SearchError where
  | input (msg : String)
  | embedding (msg : String)
  | store (msg : String)
  deriving DecidableEq, Repr

/-- Python truthiness of `filter_metadata` (`if filter_metadata:`):
`None` and the empty dict are falsy. -/
def truthy (filter_metadata : Option Payload) : Bool :=
  match filter_metadata with
  | none => false
  | some l => !l.isEmpty

/-- Model of `BaseSearchStrategy.COLLECTION_MAP`. -/
def COLLECTION_MAP : List (String × String) :=
  [("match_archon_crawled_pages", "docs"), ("match_archon_code_examples", "code")]

/-- Python `m.get(k, dflt)` on a string-keyed dict. -/
def mapGet (m : List (String × String)) (k dflt : String) : String :=
  ((m.find? (fun kv => kv.1 == k)).map (fun kv => kv.2)).getD dflt

/-- The flat result record
`\x7b"id": r.id, "score": r.score, **(r.payload or \x7b\x7d)\x7d`:
payload entries are merged after (and hence over) the base entries. -/
def buildRecord (r : ScoredPoint) : Payload :=
  mergePayload [("id", Value.int r.id), ("score", Value.int r.score)] (r.payload.getD [])

/-- Model of `BaseSearchStrategy`: holds the injected client. -/
structure BaseSearchStrategy where
  client : QdrantClient

/-- The single store request `vector_search` issues: collection resolved
through `COLLECTION_MAP` with fallback to the alias itself, limit set to
`match_count`, and — when `filter_metadata` is truthy — a conjunctive
filter with one `FieldCondition` per entry. -/
def BaseSearchStrategy.request (self : BaseSearchStrategy) (query_embedding : List Int)
    (match_count : Int) (filter_metadata : Option Payload) (table_rpc : String) :
    SearchRequest :=
  { collection_name := mapGet COLLECTION_MAP table_rpc table_rpc
    query_vector := query_embedding
    limit := match_count
    query_filter :=
      if truthy filter_metadata then
        some ⟨(filter_metadata.getD []).map (fun kv => ⟨kv.1, ⟨kv.2⟩⟩)⟩
      else none }

/-- Model of `BaseSearchStrategy.vector_search`: build the request, issue it, and
map the raw hits through `buildRecord` in store order.  The second
component is the trace of store requests issued (always exactly one). -/
def BaseSearchStrategy.vector_search (self : BaseSearchStrategy) (query_embedding : List Int)
    (match_count : Int) (filter_metadata : Option Payload) (table_rpc : String) :
    Except SearchError (List Payload) × List SearchRequest :=
  let req := self.request query_embedding match_count filter_metadata table_rpc
  match self.client.search req with
  | Except.error e => (Except.error (SearchError.store e), [req])
  | Except.ok results => (Except.ok (results.map buildRecord), [req])

/-- Model of `RAGService`: the base strategy plus the embedding provider
(`create_embedding`, an external collaborator that may fail). -/
structure RAGService where
  base_strategy : BaseSearchStrategy
  create_embedding : String → Except SearchError (List Int)

/-- Model of `RAGService.search_documents`: embed the query, then delegate to
`vector_search` with the alias fixed to `"match_archon_crawled_pages"`.
An embedding failure propagates unchanged, with no store request. -/
def RAGService.search_documents (self : RAGService) (query : String)
    (match_count : Int) (filter_metadata : Option Payload) :
    Except SearchError (List Payload) × List SearchRequest :=
  match self.create_embedding query with
  | Except.error e => (Except.error e, [])
  | Except.ok query_embedding =>
      self.base_strategy.vector_search query_embedding match_count filter_metadata
        "match_archon_crawled_pages"

/-- Model of `RAGService.search_code_examples`: same protocol with the alias
fixed to `"match_archon_code_examples"`. -/
def RAGService.search_code_examples (self : RAGService) (query : String)
    (match_count : Int) (filter_metadata : Option Payload) :
    Except SearchError (List Payload) × List SearchRequest :=
  match self.create_embedding query with
  | Except.error e => (Except.error e, [])
  | Except.ok query_embedding =>
      self.base_strategy.vector_search query_embedding match_count filter_metadata
        "match_archon_code_examples"

/-- The operations a store client can be asked to perform.  The
retrieval core only ever issues `searchQ`; the write operations exist in
the client API and are included so that "a search call performs no state
mutation" is a contentful statement about the issued trace. -/
inductive StoreOp where
  | searchQ (req : SearchRequest)
  | upsert (collection : String) (points : List ScoredPoint)
  | deleteCollection (collection : String)

/-- Effect of one store operation on the store state.  A search is a
read and leaves the state unchanged (spec §5: queries are
side-effect-free on the store); writes change the ranked contents. -/
def applyOp (c : QdrantClient) (op : StoreOp) : QdrantClient :=
  match op with
  | StoreOp.searchQ _ => c
  | StoreOp.upsert col pts =>
      { c with ranked := fun col2 qv => if col2 = col then pts ++ c.ranked col2 qv else c.ranked col2 qv }
  | StoreOp.deleteCollection col =>
      { c with ranked := fun col2 qv => if col2 = col then [] else c.ranked col2 qv }

/-- Run a sequence of store operations against a store state. -/
def runOps (c : QdrantClient) (ops : List StoreOp) : QdrantClient :=
  ops.foldl applyOp c

/-- Scenario: call `search_documents` twice with identical arguments,
threading the store state through the operations each call issues.
Returns both results and the final store state. -/
def callDocumentsTwice (emb : String → Except SearchError (List Int)) (c : QdrantClient)
    (query : String) (match_count : Int) (filter_metadata : Option Payload) :
    Except SearchError (List Payload) × Except SearchError (List Payload) × QdrantClient :=
  let svc1 : RAGService := ⟨⟨c⟩, emb⟩
  let out1 := svc1.search_documents query match_count filter_metadata
  let c1 := runOps c (out1.2.map StoreOp.searchQ)
  let svc2 : RAGService := ⟨⟨c1⟩, emb⟩
  let out2 := svc2.search_documents query match_count filter_metadata
  let c2 := runOps c1 (out2.2.map StoreOp.searchQ)
  (out1.1, out2.1, c2)

/-! ## Task service (`task_service.py`) -/

/-- One row of the `archon_tasks` SQLite table. -/
structure TaskRow where
  id : Nat
  project_id : Int
  title : String
  description : String
  status : String
  assignee : String
  created_at : String
  updated_at : String
  deriving DecidableEq, Repr

/-- The `archon_tasks` table: its rows and the next SQLite rowid. -/
structure TasksDb where
  rows : List TaskRow
  next_id : Nat
  deriving DecidableEq, Repr

/-- Result payload of a task-service call: either an error dict or the
returned task dict. -/
inductive TaskResult where
  | err (msg : String)
  | created (id : Nat) (title : String) (status : String)
  | updated (id : Nat) (status : String)
  deriving DecidableEq, Repr

namespace TaskService

/-- Model of `TaskService.VALID_STATUSES`. -/
def VALID_STATUSES : List String := ["todo", "doing", "review", "done"]

/-- Model of `TaskService.create_task`: reject an invalid status before touching
the database; otherwise open a connection and insert the row.  Returns
`((success, payload), new table state, connections opened)`;
`datetime.now()` is passed in as `now`. -/
def create_task (db : TasksDb) (project_id : Int)
    (title description status assignee : String) (now : String) :
    (Bool × TaskResult) × TasksDb × Nat :=
  if status ∉ VALID_STATUSES then
    ((false, TaskResult.err ("Invalid status '" ++ status ++ "'")), db, 0)
  else
    let row : TaskRow := ⟨db.next_id, project_id, title, description, status, assignee, now, now⟩
    ((true, TaskResult.created db.next_id title status), ⟨db.rows ++ [row], db.next_id + 1⟩, 1)

/-- Model of `TaskService.update_status`: reject an invalid status before
touching the database; otherwise open a connection, run the `UPDATE`
(affecting every row with the given id), and report "not found" exactly
when the statement's rowcount is zero. -/
def update_status (db : TasksDb) (task_id : Nat) (status now : String) :
    (Bool × TaskResult) × TasksDb × Nat :=
  if status ∉ VALID_STATUSES then
    ((false, TaskResult.err ("Invalid status '" ++ status ++ "'")), db, 0)
  else
    let rowcount := (db.rows.filter (fun r => r.id == task_id)).length
    let rows2 := db.rows.map
      (fun r => if r.id == task_id then { r with status := status, updated_at := now } else r)
    let db2 : TasksDb := { db with rows := rows2 }
    if rowcount == 0 then
      ((false, TaskResult.err ("Task with ID " ++ toString task_id ++ " not found")), db2, 1)
    else
      ((true, TaskResult.updated task_id status), db2, 1)

end TaskService

/-! ## Concrete fixtures used by witnesses -/

/-- Well-formedness of a store: every payload it can return is a dict,
i.e. has no duplicate attribute names. -/
def clientWellFormed (c : QdrantClient) : Prop :=
  ∀ col qv r, r ∈ c.ranked col qv → ((r.payload.getD []).map Prod.fst).Nodup

/-- A store holding nothing and never failing. -/
def clientEmpty : QdrantClient := ⟨fun _ _ => [], fun _ => none⟩

/-- Strategy over the empty store. -/
def strategyEmpty : BaseSearchStrategy := ⟨clientEmpty⟩

/-- An embedding provider that always succeeds with a fixed vector. -/
def embConst : String → Except SearchError (List Int) := fun _ => Except.ok [1, 2]

/-- An embedding provider that always fails. -/
def embFail : String → Except SearchError (List Int) :=
  fun _ => Except.error (SearchError.embedding "provider down")

/-- Service wired to the empty store and the constant embedder. -/
def svcEmpty : RAGService := ⟨strategyEmpty, embConst⟩

/-- Service whose embedding provider always fails. -/
def svcFail : RAGService := ⟨strategyEmpty, embFail⟩

/-- A stored point whose payload matches `language = "go"`. -/
def pointA : ScoredPoint := ⟨11, 9, some [("language", Value.str "go")]⟩

/-- A stored point whose payload matches `language = "py"`. -/
def pointB : ScoredPoint := ⟨12, 8, some [("language", Value.str "py")]⟩

/-- A store returning `pointA` then `pointB` for every query, never
failing. -/
def clientData : QdrantClient := ⟨fun _ _ => [pointA, pointB], fun _ => none⟩

/-- Strategy over `clientData`. -/
def strategyData : BaseSearchStrategy := ⟨clientData⟩

/-- Service wired to `clientData` and the constant embedder. -/
def svcData : RAGService := ⟨strategyData, embConst⟩

/-- A hit whose payload collides with the built-in `"id"` key. -/
def pointCollide : ScoredPoint := ⟨1, 5, some [("id", Value.int 99)]⟩

/-- An empty task table. -/
def dbEmpty : TasksDb := ⟨[], 1⟩

/-- A sample task row with id 1. -/
def rowSample : TaskRow := ⟨1, 7, "write spec", "", "todo", "User", "2026-01-01", "2026-01-01"⟩

/-- A task table holding `rowSample`. -/
def dbOne : TasksDb := ⟨[rowSample], 2⟩

/-! ## Association-list (Python dict) lemmas -/

theorem payloadGet_nil (k : String) : payloadGet [] k = none := rfl

theorem payloadGet_cons (x : String × Value) (xs : Payload) (k : String) :
    payloadGet (x :: xs) k = if x.1 == k then some x.2 else payloadGet xs k := by
  simp only [payloadGet, List.find?_cons]
  cases h : x.1 == k <;> simp [h]

theorem payloadGet_append (xs ys : Payload) (k : String) :
    payloadGet (xs ++ ys) k = (payloadGet xs k).orElse (fun _ => payloadGet ys k) := by
  induction xs with
  | nil => simp [payloadGet_nil, Option.orElse]
  | cons x xs ih =>
      rw [List.cons_append, payloadGet_cons, payloadGet_cons]
      cases h : x.1 == k <;> simp [ih, Option.orElse]

theorem payloadGet_eq_none_of_not_mem_keys (ps : Payload) (k : String)
    (h : k ∉ ps.map Prod.fst) : payloadGet ps k = none := by
  induction ps with
  | nil => rfl
  | cons x xs ih =>
      rw [payloadGet_cons]
      simp only [List.map_cons, List.mem_cons, not_or] at h
      have hx : (x.1 == k) = false := by
        cases hbe : x.1 == k
        · rfl
        · exact absurd (eq_of_beq hbe).symm h.1
      simp [hx, ih h.2]

theorem payloadGet_overwrite (d : Payload) (k : String) (v : Value)
    (h : d.any (fun kv => kv.1 == k) = true) :
    payloadGet (d.map (fun kv => if kv.1 == k then (k, v) else kv)) k = some v := by
  induction d with
  | nil => simp at h
  | cons x xs ih =>
      rw [List.map_cons, payloadGet_cons]
      cases hx : x.1 == k
      · simp only [List.any_cons, hx, Bool.false_or] at h
        simp [hx]
        simpa using ih h
      · simp [hx]

theorem payloadGet_map_ne (d : Payload) (k k' : String) (v : Value) (hne : k' ≠ k) :
    payloadGet (d.map (fun kv => if kv.1 == k then (k, v) else kv)) k' = payloadGet d k' := by
  induction d with
  | nil => rfl
  | cons x xs ih =>
      rw [List.map_cons, payloadGet_cons, payloadGet_cons]
      cases hx : x.1 == k
      · simp [hx]
        by_cases hxk : x.1 = k'
        · simp [hxk]
        · simp [hxk]
          simpa using ih
      · have hk : x.1 = k := eq_of_beq hx
        have h1 : (k == k') = false := by
          cases hbe : k == k'
          · rfl
          · exact absurd (eq_of_beq hbe).symm hne
        have h2 : (x.1 == k') = false := by rw [hk]; exact h1
        simp [hx, h1, h2]
        simpa using ih

theorem payloadGet_dictInsert_self (d : Payload) (k : String) (v : Value) :
    payloadGet (dictInsert d k v) k = some v := by
  unfold dictInsert
  split
  · next h => exact payloadGet_overwrite d k v h
  · next h =>
      rw [payloadGet_append]
      have hnone : payloadGet d k = none := by
        apply payloadGet_eq_none_of_not_mem_keys
        intro hmem
        apply h
        rw [List.any_eq_true]
        rcases List.mem_map.mp hmem with ⟨kv, hkv, hfst⟩
        exact ⟨kv, hkv, by simp [hfst]⟩
      simp [hnone, Option.orElse, payloadGet_cons, payloadGet_nil]

theorem payloadGet_dictInsert_ne (d : Payload) (k k' : String) (v : Value) (hne : k' ≠ k) :
    payloadGet (dictInsert d k v) k' = payloadGet d k' := by
  unfold dictInsert
  split
  · next h => exact payloadGet_map_ne d k k' v hne
  · next h =>
      rw [payloadGet_append]
      have h1 : ((k, v).1 == k') = false := by
        cases hbe : (k, v).1 == k'
        · rfl
        · exact absurd (eq_of_beq hbe).symm hne
      cases hd : payloadGet d k' <;>
        simp [Option.orElse, payloadGet_cons, payloadGet_nil, h1]

theorem payloadGet_mergePayload (base ps : Payload) (k : String) :
    payloadGet (mergePayload base ps) k =
      (payloadGet ps.reverse k).orElse (fun _ => payloadGet base k) := by
  induction ps generalizing base with
  | nil => simp [mergePayload, payloadGet_nil, Option.orElse]
  | cons p ps ih =>
      have hstep : mergePayload base (p :: ps) = mergePayload (dictInsert base p.1 p.2) ps := rfl
      rw [hstep, ih, List.reverse_cons, payloadGet_append]
      cases hA : payloadGet ps.reverse k
      · cases hp : p.1 == k
        · have hne : k ≠ p.1 := by
            intro hk
            rw [hk] at hp
            simp at hp
          rw [payloadGet_dictInsert_ne base p.1 k p.2 hne]
          simp [Option.orElse, payloadGet_cons, payloadGet_nil, hp]
        · have hk : p.1 = k := eq_of_beq hp
          rw [← hk, payloadGet_dictInsert_self]
          simp [Option.orElse, payloadGet_cons, payloadGet_nil, hp, hk]
      · simp [Option.orElse, hA]

theorem payloadGet_reverse_of_nodup (ps : Payload) (k : String)
    (h : (ps.map Prod.fst).Nodup) : payloadGet ps.reverse k = payloadGet ps k := by
  induction ps with
  | nil => rfl
  | cons p ps ih =>
      rw [List.reverse_cons, payloadGet_append, payloadGet_cons]
      simp only [List.map_cons, List.nodup_cons] at h
      cases hp : p.1 == k
      · rw [ih h.2]
        cases hA : payloadGet ps k <;>
          simp [Option.orElse, payloadGet_cons, payloadGet_nil, hp, hA]
      · have hk : k = p.1 := (eq_of_beq hp).symm
        have hnone : payloadGet ps k = none := by
          apply payloadGet_eq_none_of_not_mem_keys
          rw [hk]
          exact h.1
        have hnone' : payloadGet ps.reverse k = none := by
          rw [ih h.2]
          exact hnone
        simp [hnone, hnone', Option.orElse, payloadGet_cons, payloadGet_nil, hp]

/-! ## Shape lemmas for the search pipeline -/

theorem vector_search_trace (strat : BaseSearchStrategy) (emb : List Int) (mc : Int)
    (fm : Option Payload) (rpc : String) :
    (strat.vector_search emb mc fm rpc).2 = [strat.request emb mc fm rpc] := by
  unfold BaseSearchStrategy.vector_search
  cases h : strat.client.search (strat.request emb mc fm rpc) <;> simp [h]

theorem vector_search_ok (strat : BaseSearchStrategy) (emb : List Int) (mc : Int)
    (fm : Option Payload) (rpc : String) (raw : List ScoredPoint)
    (h : strat.client.search (strat.request emb mc fm rpc) = Except.ok raw) :
    (strat.vector_search emb mc fm rpc).1 = Except.ok (raw.map buildRecord) := by
  simp [BaseSearchStrategy.vector_search, h]

theorem vector_search_err (strat : BaseSearchStrategy) (emb : List Int) (mc : Int)
    (fm : Option Payload) (rpc : String) (e : String)
    (h : strat.client.search (strat.request emb mc fm rpc) = Except.error e) :
    (strat.vector_search emb mc fm rpc).1 = Except.error (SearchError.store e) := by
  simp [BaseSearchStrategy.vector_search, h]

theorem vector_search_ok_inv (strat : BaseSearchStrategy) (emb : List Int) (mc : Int)
    (fm : Option Payload) (rpc : String) (res : List Payload)
    (h : (strat.vector_search emb mc fm rpc).1 = Except.ok res) :
    ∃ raw, strat.client.search (strat.request emb mc fm rpc) = Except.ok raw ∧
      res = raw.map buildRecord := by
  cases hc : strat.client.search (strat.request emb mc fm rpc) with
  | error e => simp [BaseSearchStrategy.vector_search, hc] at h
  | ok raw =>
      refine ⟨raw, rfl, ?_⟩
      simp [BaseSearchStrategy.vector_search, hc] at h
      exact h.symm

theorem search_ok_shape (c : QdrantClient) (req : SearchRequest) (raw : List ScoredPoint)
    (h : c.search req = Except.ok raw) :
    raw = ((c.ranked req.collection_name req.query_vector).filter
      (fun r => matchesFilter req.query_filter r.payload)).take req.limit.toNat := by
  unfold QdrantClient.search at h
  cases hf : c.failure req <;> rw [hf] at h
  · simpa using h.symm
  · exact absurd h (by simp)

/-- Lookup in the flat record: a payload attribute (of a duplicate-free
payload) wins over the built-in `id`/`score` entries. -/
theorem payloadGet_buildRecord (r : ScoredPoint) (k : String) (v : Value)
    (hnd : ((r.payload.getD []).map Prod.fst).Nodup)
    (hv : payloadGet (r.payload.getD []) k = some v) :
    payloadGet (buildRecord r) k = some v := by
  rw [buildRecord, mergePayload, ← mergePayload, payloadGet_mergePayload,
    payloadGet_reverse_of_nodup _ _ hnd, hv]
  simp [Option.orElse]

theorem runOps_searchQ (c : QdrantClient) (t : List SearchRequest) :
    runOps c (t.map StoreOp.searchQ) = c := by
  induction t with
  | nil => rfl
  | cons x xs ih => simpa [runOps, applyOp] using ih

/-! ## Claim theorems -/

/-- Claim C1: every `vector_search` call resolves the alias
`"match_archon_crawled_pages"` to collection `"docs"` and
`"match_archon_code_examples"` to `"code"`; an alias outside the mapping
passes through unchanged as the literal collection identifier; and
`search_documents` always queries via the former alias while
`search_code_examples` queries via the latter. -/
theorem alias_resolution :
    (mapGet COLLECTION_MAP "match_archon_crawled_pages" "match_archon_crawled_pages" = "docs") ∧
    (mapGet COLLECTION_MAP "match_archon_code_examples" "match_archon_code_examples" = "code") ∧
    (∀ a : String, a ≠ "match_archon_crawled_pages" →
      a ≠ "match_archon_code_examples" → mapGet COLLECTION_MAP a a = a) ∧
    (∀ (strat : BaseSearchStrategy) (emb : List Int) (mc : Int) (fm : Option Payload)
      (rpc : String),
      (strat.vector_search emb mc fm rpc).2.map SearchRequest.collection_name
        = [mapGet COLLECTION_MAP rpc rpc]) ∧
    (∀ (svc : RAGService) (q : String) (mc : Int) (fm : Option Payload) (emb : List Int),
      svc.create_embedding q = Except.ok emb →
      (svc.search_documents q mc fm).2.map SearchRequest.collection_name = ["docs"]) ∧
    (∀ (svc : RAGService) (q : String) (mc : Int) (fm : Option Payload) (emb : List Int),
      svc.create_embedding q = Except.ok emb →
      (svc.search_code_examples q mc fm).2.map SearchRequest.collection_name = ["code"]) := by
  refine ⟨rfl, rfl, ?_, ?_, ?_, ?_⟩
  · intro a h1 h2
    have b1 : ("match_archon_crawled_pages" == a) = false := by
      cases hbe : "match_archon_crawled_pages" == a
      · rfl
      · exact absurd (eq_of_beq hbe).symm h1
    have b2 : ("match_archon_code_examples" == a) = false := by
      cases hbe : "match_archon_code_examples" == a
      · rfl
      · exact absurd (eq_of_beq hbe).symm h2
    simp [mapGet, COLLECTION_MAP, List.find?, b1, b2]
  · intro strat emb mc fm rpc
    rw [vector_search_trace]
    simp [BaseSearchStrategy.request]
  · intro svc q mc fm emb h
    simp only [RAGService.search_documents, h]
    rw [vector_search_trace]
    simp [BaseSearchStrategy.request]
    rfl
  · intro svc q mc fm emb h
    simp only [RAGService.search_code_examples, h]
    rw [vector_search_trace]
    simp [BaseSearchStrategy.request]
    rfl

/-- Witness for C1: the unknown alias `"foo"` resolves to itself, and
concrete `search_documents` / `search_code_examples` calls hit the
`"docs"` / `"code"` collections. -/
theorem alias_resolution_witness :
    mapGet COLLECTION_MAP "foo" "foo" = "foo" ∧
    (svcEmpty.search_documents "q" 3 none).2.map SearchRequest.collection_name = ["docs"] ∧
    (svcEmpty.search_code_examples "q" 3 none).2.map SearchRequest.collection_name = ["code"] :=
  ⟨alias_resolution.2.2.1 "foo" (by decide) (by decide),
   alias_resolution.2.2.2.2.1 svcEmpty "q" 3 none [1, 2] rfl,
   alias_resolution.2.2.2.2.2 svcEmpty "q" 3 none [1, 2] rfl⟩

/-- Claim C6: for an absent (`none`) or empty filter mapping,
`vector_search` passes no filter predicate to the store, and a `none`
predicate restricts nothing: every payload satisfies it. -/
theorem empty_filter_unrestricted :
    (∀ (strat : BaseSearchStrategy) (emb : List Int) (mc : Int) (rpc : String),
      (strat.vector_search emb mc none rpc).2.map SearchRequest.query_filter = [none]) ∧
    (∀ (strat : BaseSearchStrategy) (emb : List Int) (mc : Int) (rpc : String),
      (strat.vector_search emb mc (some []) rpc).2.map SearchRequest.query_filter = [none]) ∧
    (∀ p : Option Payload, matchesFilter none p = true) := by
  refine ⟨?_, ?_, ?_⟩
  · intro strat emb mc rpc
    rw [vector_search_trace]
    simp [BaseSearchStrategy.request, truthy]
  · intro strat emb mc rpc
    rw [vector_search_trace]
    simp [BaseSearchStrategy.request, truthy]
  · intro p
    rfl

/-- Counterexample to C8 as stated: the alias table contains neither the
key `"documents-alias"` nor the key `"code-alias"`; `"documents-alias"`
falls through to itself instead of resolving to `"docs"`. -/
theorem collection_map_spec_keys_absent :
    COLLECTION_MAP.find? (fun kv => kv.1 == "documents-alias") = none ∧
    COLLECTION_MAP.find? (fun kv => kv.1 == "code-alias") = none ∧
    mapGet COLLECTION_MAP "documents-alias" "documents-alias" = "documents-alias" ∧
    mapGet COLLECTION_MAP "documents-alias" "documents-alias" ≠ "docs" := by
  refine ⟨rfl, rfl, rfl, ?_⟩
  decide

/-- Claim C8 (amended): the exposed collection alias table maps exactly
the two alias keys `"match_archon_crawled_pages"` and
`"match_archon_code_examples"`, to the collections `"docs"` and
`"code"` respectively; no other key is present. -/
theorem collection_map_contents :
    mapGet COLLECTION_MAP "match_archon_crawled_pages" "" = "docs" ∧
    mapGet COLLECTION_MAP "match_archon_code_examples" "" = "code" ∧
    COLLECTION_MAP.length = 2 ∧
    (∀ k : String, k ≠ "match_archon_crawled_pages" → k ≠ "match_archon_code_examples" →
      COLLECTION_MAP.find? (fun kv => kv.1 == k) = none) := by
  refine ⟨rfl, rfl, rfl, ?_⟩
  intro k h1 h2
  have b1 : ("match_archon_crawled_pages" == k) = false := by
    cases hbe : "match_archon_crawled_pages" == k
    · rfl
    · exact absurd (eq_of_beq hbe).symm h1
  have b2 : ("match_archon_code_examples" == k) = false := by
    cases hbe : "match_archon_code_examples" == k
    · rfl
    · exact absurd (eq_of_beq hbe).symm h2
  simp [COLLECTION_MAP, List.find?, b1, b2]

/-- Witness for C8 (amended): the key `"foo"` is not in the table. -/
theorem collection_map_contents_witness :
    COLLECTION_MAP.find? (fun kv => kv.1 == "foo") = none :=
  collection_map_contents.2.2.2 "foo" (by decide) (by decide)

/-- Counterexample to C5 as stated: at `match_count = 0` (≤ 0),
`vector_search` does not surface an `InputError` and does not skip the
store round trip — against a benign store it issues exactly one request
and returns the store's (empty) result. -/
theorem low_match_count_not_validated :
    (strategyEmpty.vector_search [1, 2] 0 none "match_archon_crawled_pages").2.length = 1 ∧
    (strategyEmpty.vector_search [1, 2] 0 none "match_archon_crawled_pages").1
      = Except.ok [] := by
  exact ⟨rfl, rfl⟩

/-- Claim C5 (amended): `vector_search` performs no local validation of
`match_count`: for every `match_count ≤ 0` it still issues exactly one
store request, passing `limit = match_count` through unchanged, and its
result is never an `InputError` (any failure is a propagated store
error). -/
theorem low_match_count_passthrough :
    ∀ (strat : BaseSearchStrategy) (emb : List Int) (mc : Int) (fm : Option Payload)
      (rpc : String), mc ≤ 0 →
      ((strat.vector_search emb mc fm rpc).2.map SearchRequest.limit = [mc]) ∧
      (∀ msg : String,
        (strat.vector_search emb mc fm rpc).1 ≠ Except.error (SearchError.input msg)) := by
  intro strat emb mc fm rpc _
  constructor
  · rw [vector_search_trace]
    simp [BaseSearchStrategy.request]
  · intro msg
    cases hc : strat.client.search (strat.request emb mc fm rpc) with
    | error e => rw [vector_search_err strat emb mc fm rpc e hc]; simp
    | ok raw => rw [vector_search_ok strat emb mc fm rpc raw hc]; simp

/-- Witness for C5 (amended): at `match_count = -1` the single request
carries limit `-1` and the result is not an `InputError`. -/
theorem low_match_count_passthrough_witness :
    ((strategyEmpty.vector_search [1, 2] (-1) none "docs").2.map SearchRequest.limit
      = [(-1 : Int)]) ∧
    (strategyEmpty.vector_search [1, 2] (-1) none "docs").1
      ≠ Except.error (SearchError.input "bad") := by
  have h := low_match_count_passthrough strategyEmpty [1, 2] (-1) none "docs" (by decide)
  exact ⟨h.1, h.2 "bad"⟩

/-- Claim C3: for `match_count = K > 0`, `vector_search` requests
exactly `limit = K` from the store, returns at most `K` hits, builds
each returned hit by flattening the raw hit's payload into the same
record as its id and score, and preserves the store's ranking order
(the result is the store's response mapped elementwise — never
re-sorted). -/
theorem limit_and_order :
    ∀ (strat : BaseSearchStrategy) (emb : List Int) (mc : Int) (fm : Option Payload)
      (rpc : String), 0 < mc →
      ((strat.vector_search emb mc fm rpc).2.map SearchRequest.limit = [mc]) ∧
      ((strat.vector_search emb mc fm rpc).1
        = ((strat.client.search (strat.request emb mc fm rpc)).mapError
            SearchError.store).map (List.map buildRecord)) ∧
      (∀ res : List Payload, (strat.vector_search emb mc fm rpc).1 = Except.ok res →
        res.length ≤ mc.toNat) := by
  intro strat emb mc fm rpc _
  refine ⟨?_, ?_, ?_⟩
  · rw [vector_search_trace]
    simp [BaseSearchStrategy.request]
  · cases hc : strat.client.search (strat.request emb mc fm rpc) with
    | error e =>
        rw [vector_search_err strat emb mc fm rpc e hc]
        simp [Except.mapError, Except.map]
    | ok raw =>
        rw [vector_search_ok strat emb mc fm rpc raw hc]
        simp [Except.mapError, Except.map]
  · intro res h
    obtain ⟨raw, hc, hres⟩ := vector_search_ok_inv strat emb mc fm rpc res h
    have hshape := search_ok_shape strat.client _ raw hc
    rw [hres, hshape]
    simp only [List.length_map, List.length_take]
    have : (strat.request emb mc fm rpc).limit = mc := rfl
    rw [this]
    exact min_le_left _ _

/-- Witness for C3: with two stored points and `match_count = 1`, the
single issued request carries limit 1, the result is the store's
response mapped through `buildRecord`, and it has at most one hit. -/
theorem limit_and_order_witness :
    ((strategyData.vector_search [1, 2] 1 none "docs").2.map SearchRequest.limit
      = [(1 : Int)]) ∧
    ([buildRecord pointA].length ≤ (1 : Int).toNat) := by
  have h := limit_and_order strategyData [1, 2] 1 none "docs" (by decide)
  exact ⟨h.1, h.2.2 [buildRecord pointA] rfl⟩

/-- Claim C4: if the embedding provider fails, `search_documents` and
`search_code_examples` return exactly that error with no store request
issued; a successful (possibly empty) result can only arise from a
successful store response (of which it is the elementwise image); and a
store failure is propagated as an error, never replaced by an empty
result. -/
theorem embedding_failure_propagation :
    (∀ (svc : RAGService) (q : String) (mc : Int) (fm : Option Payload) (e : SearchError),
      svc.create_embedding q = Except.error e →
      svc.search_documents q mc fm = (Except.error e, []) ∧
      svc.search_code_examples q mc fm = (Except.error e, [])) ∧
    (∀ (strat : BaseSearchStrategy) (emb : List Int) (mc : Int) (fm : Option Payload)
      (rpc : String) (res : List Payload),
      (strat.vector_search emb mc fm rpc).1 = Except.ok res →
      ∃ raw, strat.client.search (strat.request emb mc fm rpc) = Except.ok raw ∧
        res = raw.map buildRecord) ∧
    (∀ (strat : BaseSearchStrategy) (emb : List Int) (mc : Int) (fm : Option Payload)
      (rpc : String) (e : String),
      strat.client.search (strat.request emb mc fm rpc) = Except.error e →
      (strat.vector_search emb mc fm rpc).1 = Except.error (SearchError.store e)) := by
  refine ⟨?_, vector_search_ok_inv, ?_⟩
  · intro svc q mc fm e h
    constructor
    · simp only [RAGService.search_documents, h]
    · simp only [RAGService.search_code_examples, h]
  · intro strat emb mc fm rpc e h
    exact vector_search_err strat emb mc fm rpc e h

/-- Witness for C4: a failing embedder makes both operations fail with
its exact error and an empty request trace. -/
theorem embedding_failure_propagation_witness :
    svcFail.search_documents "q" 5 none
      = (Except.error (SearchError.embedding "provider down"), []) ∧
    svcFail.search_code_examples "q" 5 none
      = (Except.error (SearchError.embedding "provider down"), []) :=
  embedding_failure_propagation.1 svcFail "q" 5 none
    (SearchError.embedding "provider down") rfl

/-- Claim C2: for a non-empty filter mapping, `vector_search` passes
the store a conjunctive predicate with exactly one equality condition
per filter entry (in entry order), and — for a well-formed store —
every returned hit satisfies every filter condition. -/
theorem filter_conjunction_sound :
    ∀ (strat : BaseSearchStrategy) (emb : List Int) (mc : Int) (fm : Payload) (rpc : String),
      fm ≠ [] →
      ((strat.vector_search emb mc (some fm) rpc).2.map SearchRequest.query_filter
        = [some ⟨fm.map (fun kv => ⟨kv.1, ⟨kv.2⟩⟩)⟩]) ∧
      (clientWellFormed strat.client →
        ∀ res : List Payload,
          (strat.vector_search emb mc (some fm) rpc).1 = Except.ok res →
          ∀ rec ∈ res, ∀ kv ∈ fm, payloadGet rec kv.1 = some kv.2) := by
  intro strat emb mc fm rpc hfm
  have htruthy : truthy (some fm) = true := by
    rcases fm with _ | ⟨p, ps⟩
    · exact absurd rfl hfm
    · rfl
  have hq : (strat.request emb mc (some fm) rpc).query_filter
      = some ⟨fm.map (fun kv => ⟨kv.1, ⟨kv.2⟩⟩)⟩ := by
    simp [BaseSearchStrategy.request, htruthy]
  constructor
  · rw [vector_search_trace]
    simp only [List.map_cons, List.map_nil, hq]
  · intro hwf res hres rec hrec kv hkv
    obtain ⟨raw, hc, hresraw⟩ := vector_search_ok_inv strat emb mc (some fm) rpc res hres
    have hshape := search_ok_shape strat.client _ raw hc
    rw [hresraw] at hrec
    obtain ⟨r, hr, hbuild⟩ := List.mem_map.mp hrec
    rw [hshape] at hr
    have hrfil := List.take_subset _ _ hr
    have hrmem := List.mem_filter.mp hrfil
    have hmatch : matchesFilter (strat.request emb mc (some fm) rpc).query_filter r.payload
        = true := hrmem.2
    rw [hq] at hmatch
    have hcond := List.all_eq_true.mp hmatch ⟨kv.1, ⟨kv.2⟩⟩
      (List.mem_map.mpr ⟨kv, hkv, rfl⟩)
    have hval : payloadGet (r.payload.getD []) kv.1 = some kv.2 := by
      simpa using hcond
    have hnd := hwf _ _ r hrmem.1
    rw [← hbuild]
    exact payloadGet_buildRecord r kv.1 kv.2 hnd hval

/-- Witness for C2: filtering on `language = "go"` against the
two-point store builds the one-condition predicate and the surviving
hit carries `language = "go"`. -/
theorem filter_conjunction_sound_witness :
    ((strategyData.vector_search [1, 2] 5 (some [("language", Value.str "go")]) "docs").2.map
        SearchRequest.query_filter
      = [some ⟨[⟨"language", ⟨Value.str "go"⟩⟩]⟩]) ∧
    payloadGet (buildRecord pointA) "language" = some (Value.str "go") := by
  have hwf : clientWellFormed clientData := by
    intro col qv r hr
    have hr2 : r ∈ [pointA, pointB] := hr
    rcases List.mem_cons.mp hr2 with h | h
    · subst h; decide
    · have h3 : r = pointB := by simpa using h
      subst h3; decide
  have h := filter_conjunction_sound strategyData [1, 2] 5 [("language", Value.str "go")]
    "docs" (by simp)
  refine ⟨h.1, ?_⟩
  exact h.2 hwf [buildRecord pointA] rfl (buildRecord pointA) (by simp)
    ("language", Value.str "go") (by simp)

/-- Claim C9: when a raw hit's payload itself contains a key (such as
`"id"` or `"score"`), the flat record returned by `vector_search`
carries the payload's value for that key — the payload is merged last
and silently overwrites the hit's own entries. -/
theorem payload_key_collision_overwrites :
    ∀ (r : ScoredPoint) (p : Payload) (k : String) (v : Value),
      r.payload = some p → (p.map Prod.fst).Nodup → payloadGet p k = some v →
      payloadGet (buildRecord r) k = some v := by
  intro r p k v hp hnd hv
  apply payloadGet_buildRecord
  · rw [hp]
    simpa using hnd
  · rw [hp]
    simpa using hv

/-- Witness for C9: a hit with id 1 whose payload maps `"id"` to 99
yields a record whose `"id"` is the payload's 99, not the hit's 1. -/
theorem payload_key_collision_overwrites_witness :
    payloadGet (buildRecord pointCollide) "id" = some (Value.int 99) ∧
    payloadGet (buildRecord pointCollide) "id" ≠ some (Value.int pointCollide.id) := by
  have h := payload_key_collision_overwrites pointCollide [("id", Value.int 99)] "id"
    (Value.int 99) rfl (by decide) (by decide)
  refine ⟨h, ?_⟩
  rw [h]
  decide

/-- Claim C7: calling `search_documents` twice with identical arguments,
threading the store through the operations each call issues, yields
identical results, and the store state after both calls is the initial
one — a search issues only read operations, which mutate nothing. -/
theorem search_idempotent_no_mutation :
    ∀ (emb : String → Except SearchError (List Int)) (c : QdrantClient) (q : String)
      (mc : Int) (fm : Option Payload),
      (callDocumentsTwice emb c q mc fm).1 = (callDocumentsTwice emb c q mc fm).2.1 ∧
      (callDocumentsTwice emb c q mc fm).2.2 = c := by
  intro emb c q mc fm
  unfold callDocumentsTwice
  simp [runOps_searchQ]

/-- Claim C10: both `create_task` and `update_status` reject a status
outside `VALID_STATUSES` with `(False, error)` before opening any
database connection and leave the table unchanged; for a valid status,
`update_status` fails exactly when no row with the given id exists. -/
theorem task_status_validation :
    (∀ (db : TasksDb) (pid : Int) (title descr st asg now : String),
      st ∉ TaskService.VALID_STATUSES →
      TaskService.create_task db pid title descr st asg now
        = ((false, TaskResult.err ("Invalid status '" ++ st ++ "'")), db, 0)) ∧
    (∀ (db : TasksDb) (tid : Nat) (st now : String),
      st ∉ TaskService.VALID_STATUSES →
      TaskService.update_status db tid st now
        = ((false, TaskResult.err ("Invalid status '" ++ st ++ "'")), db, 0)) ∧
    (∀ (db : TasksDb) (tid : Nat) (st now : String),
      st ∈ TaskService.VALID_STATUSES →
      ((TaskService.update_status db tid st now).1.1 = false ↔
        ∀ r ∈ db.rows, r.id ≠ tid)) := by
  refine ⟨?_, ?_, ?_⟩
  · intro db pid title descr st asg now h
    simp [TaskService.create_task, h]
  · intro db tid st now h
    simp [TaskService.update_status, h]
  · intro db tid st now h
    simp only [TaskService.update_status]
    rw [if_neg (not_not_intro h)]
    by_cases hrc : (db.rows.filter (fun r => r.id == tid)).length = 0
    · simp only [hrc]
      constructor
      · intro _ r hr
        have hnil : db.rows.filter (fun r => r.id == tid) = [] :=
          List.length_eq_zero.mp hrc
        have := List.filter_eq_nil_iff.mp hnil r hr
        simpa using this
      · intro _
        simp
    · have hb : ((db.rows.filter (fun r => r.id == tid)).length == 0) = false := by
        simpa using hrc
      rw [hb, if_neg Bool.false_ne_true]
      constructor
      · intro habs
        exact absurd habs (by simp)
      · intro hall
        exfalso
        apply hrc
        rw [List.length_eq_zero, List.filter_eq_nil_iff]
        intro a ha
        simpa using hall a ha

/-- Witness for C10: the invalid status `"archived"` is rejected with no
connection opened and the table unchanged; updating task 1 in an empty
table with the valid status `"done"` fails exactly because no such row
exists. -/
theorem task_status_validation_witness :
    (TaskService.create_task dbOne 7 "t" "" "archived" "User" "2026-02-03"
      = ((false, TaskResult.err ("Invalid status '" ++ "archived" ++ "'")), dbOne, 0)) ∧
    (TaskService.update_status dbOne 1 "archived" "2026-02-03"
      = ((false, TaskResult.err ("Invalid status '" ++ "archived" ++ "'")), dbOne, 0)) ∧
    ((TaskService.update_status dbEmpty 1 "done" "2026-02-03").1.1 = false ↔
      ∀ r ∈ dbEmpty.rows, r.id ≠ 1) :=
  ⟨task_status_validation.1 dbOne 7 "t" "" "archived" "User" "2026-02-03" (by decide),
   task_status_validation.2.1 dbOne 1 "archived" "2026-02-03" (by decide),
   task_status_validation.2.2 dbEmpty 1 "done" "2026-02-03" (by decide)⟩

end Archon
